import Mathlib

/-!
# Verification of `serial_plotter.py`

A shallow embedding of the serial-data-plotter program:

* `SerialReader.run` (the background reader thread) is modelled as a pure
  function from the sequence of serial read events it observes to the list
  of messages it puts on the queue;
* Python's builtin `float()` conversion (applied to a stripped line) is
  modelled by `pyFloatParse`, with finite values represented exactly as
  rationals. Modelling notes: underscore digit separators and
  overflow-to-infinity of huge exponents are not modelled; rounding to IEEE
  doubles is not modelled (values are exact). Crucially — and faithfully to
  CPython — the strings `inf`, `infinity` and `nan` (any capitalisation,
  optionally signed) are accepted and produce non-finite values;
* the `SerialPlotter` GUI controller is modelled as a state machine
  (`PState` / `Reachable`): queue contents, data buffers, start time,
  the reader reference and the enabled-state of the Start/Stop buttons.
  Wall-clock time is passed to each action as an explicit rational `now`.
  Each queued message carries a ghost tag recording which reader produced
  it, used only to state cross-session delivery properties;
* `_update_plot` (the redraw callback) is modelled by `updatePlot` over
  rational-valued buffers.
-/

namespace SerialPlotter

/-! ## Python `float()` parsing, modelled

`float(line.strip())` in `SerialReader.run` accepts an optional sign
followed by either a decimal number (digits, optional fraction, optional
exponent) or the case-insensitive words `inf` / `infinity` / `nan`.
-/

/-- The result of a successful Python `float()` conversion: a finite value
(modelled exactly as a rational), an infinity, or a NaN. -/
inductive PyFloat where
  | finite (q : ℚ)
  | inf
  | neginf
  | nan
deriving DecidableEq, Repr

/-- Characters removed by Python's `bytes.strip()` / accepted as leading or
trailing whitespace by `float()`: space, tab, LF, CR, VT, FF. -/
def isPySpace (c : Char) : Bool :=
  c = ' ' || c = '\t' || c = '\n' || c = '\r' || c = Char.ofNat 11 || c = Char.ofNat 12

/-- Strip leading and trailing whitespace from a character list. -/
def stripChars (cs : List Char) : List Char :=
  ((cs.dropWhile isPySpace).reverse.dropWhile isPySpace).reverse

/-- Split a character list into its longest leading run of ASCII digits and
the remainder. -/
def splitDigits : List Char → List Char × List Char
  | [] => ([], [])
  | c :: cs =>
    if c.isDigit then
      let p := splitDigits cs
      (c :: p.1, p.2)
    else ([], c :: cs)

/-- Numeric value of a digit string (most significant first). -/
def digitsVal (ds : List Char) : ℕ :=
  ds.foldl (fun a c => 10 * a + (c.toNat - 48)) 0

/-- Parse the (optional) exponent part: empty means exponent `0`; otherwise
`e`/`E`, an optional sign, and a non-empty digit run consuming the whole
rest. -/
def parseExp (cs : List Char) : Option ℤ :=
  match cs with
  | [] => some 0
  | c :: rest =>
    if c = 'e' ∨ c = 'E' then
      let p :=
        match rest with
        | '+' :: r => (false, r)
        | '-' :: r => (true, r)
        | r => (false, r)
      let q := splitDigits p.2
      if q.1 = [] ∨ q.2 ≠ [] then none
      else some (if p.1 then -(digitsVal q.1 : ℤ) else (digitsVal q.1 : ℤ))
    else none

/-- Parse an unsigned decimal number: digits, an optional `.` with further
digits (at least one digit overall), and an optional exponent. -/
def parseNumber (cs : List Char) : Option ℚ :=
  let ip := splitDigits cs
  let fp :=
    match ip.2 with
    | '.' :: r => splitDigits r
    | _ => ([], ip.2)
  if ip.1 = [] ∧ fp.1 = [] then none
  else
    match parseExp fp.2 with
    | none => none
    | some e =>
      some (((digitsVal ip.1 : ℚ) + (digitsVal fp.1 : ℚ) / 10 ^ fp.1.length)
        * (10 : ℚ) ^ (e : ℤ))

/-- Model of Python's `float()` applied to a line: strip whitespace, take an
optional sign, then either the case-insensitive words `inf` / `infinity` /
`nan`, or a decimal number. `none` models a `ValueError`. -/
def pyFloatParse (s : String) : Option PyFloat :=
  let cs := stripChars s.data
  let sp :=
    match cs with
    | '+' :: r => (false, r)
    | '-' :: r => (true, r)
    | r => (false, r)
  let low := sp.2.map Char.toLower
  if low = [] then none
  else if low = ['i', 'n', 'f'] ∨ low = "infinity".data then
    some (if sp.1 then PyFloat.neginf else PyFloat.inf)
  else if low = ['n', 'a', 'n'] then
    some PyFloat.nan
  else
    match parseNumber sp.2 with
    | some q => some (PyFloat.finite (if sp.1 then -q else q))
    | none => none

/-- Does a string parse as a *finite* float?  This is the spec's notion
("a line that parses as a finite float"), stated from the spec's words for
comparison with what the code does. -/
def parsesAsFiniteFloat (s : String) : Prop :=
  ∃ q : ℚ, pyFloatParse s = some (PyFloat.finite q)

/-! ## The reader thread: `SerialReader.run` -/

/-- A message placed on the inter-thread queue: either a parsed value
(the code puts the `float` itself) or an exception (`SerialException`),
modelled by its message string. -/
inductive Msg where
  | sample (v : PyFloat)
  | error (e : String)
deriving DecidableEq, Repr

/-- Is a message the error (`Exception`) variant? -/
def isErrorMsg : Msg → Bool
  | Msg.sample _ => false
  | Msg.error _ => true

/-- One observation of `self._serial.readline()` inside the read loop:
either it returns bytes (`recv ""` models a timeout returning no bytes) or
it raises a `SerialException`. -/
inductive ReadEvent where
  | recv (s : String)
  | ioError (e : String)
deriving DecidableEq, Repr

/-- The `while not self._stop_event.is_set()` loop of `SerialReader.run`:
an empty read (`if not line`) continues; a line that converts via `float()`
is put on the queue; a `ValueError` is silently ignored; a
`SerialException` puts the exception and breaks.  The input list is the
sequence of reads the loop performs before the stop flag is observed set
(the list ending models the stop signal). -/
def readLoop : List ReadEvent → List Msg
  | [] => []
  | ReadEvent.recv s :: evs =>
    if s = "" then readLoop evs
    else
      match pyFloatParse s with
      | some v => Msg.sample v :: readLoop evs
      | none => readLoop evs
  | ReadEvent.ioError e :: _ => [Msg.error e]

/-- `SerialReader.run`: if opening the port raises (`openErr = some e`),
the exception is put and the thread returns; otherwise the read loop runs
over the observed events. -/
def readerRun (openErr : Option String) (evs : List ReadEvent) : List Msg :=
  match openErr with
  | some e => [Msg.error e]
  | none => readLoop evs

/-! ## The GUI controller: `SerialPlotter` -/

/-- A message on the controller's queue, with a ghost tag `producedBy`
recording the numeric identity of the reader that put it (readers are
numbered in creation order).  The tag has no counterpart at runtime; it
only lets theorems speak about which session a message came from. -/
structure QMsg where
  producedBy : ℕ
  msg : Msg
deriving DecidableEq, Repr

/-- Is a queued message the error variant? -/
def isErrorQ (m : QMsg) : Bool := isErrorMsg m.msg

/-- The controller state: the single `queue.Queue` created in `__init__`
(`dataQueue`, FIFO front first), the `_data` / `_time` buffers,
`_start_time`, the `_reader` reference (by ghost reader number), the
enabled-state of the Start and Stop buttons, a counter of readers created
so far, and a ghost counter `orphaned` of reader references that were
overwritten without being stopped. -/
structure PState where
  dataQueue : List QMsg
  data : List PyFloat
  timeBuf : List ℚ
  startTime : ℚ
  reader : Option ℕ
  startEnabled : Bool
  stopEnabled : Bool
  nextReaderId : ℕ
  orphaned : ℕ
deriving DecidableEq, Repr

/-- `SerialPlotter.__init__` at wall-clock time `t0`: empty queue, empty
buffers, `_start_time = time.time()`, no reader, Start enabled and Stop
disabled. -/
def initState (t0 : ℚ) : PState :=
  { dataQueue := []
    data := []
    timeBuf := []
    startTime := t0
    reader := none
    startEnabled := true
    stopEnabled := false
    nextReaderId := 0
    orphaned := 0 }

/-- `SerialPlotter._stop_reading`: if a reader is held, signal it and drop
the reference (the `stop()` signal and bounded `join` have no effect on
controller state); then enable Start and disable Stop. -/
def stopReading (s : PState) : PState :=
  { s with reader := none, startEnabled := true, stopEnabled := false }

/-- A user click on the Stop button: Qt delivers `clicked` only while the
button is enabled, so a click on the disabled button does nothing;
otherwise `_stop_reading` runs. -/
def clickStop (s : PState) : PState :=
  if s.stopEnabled then stopReading s else s

/-- A user click on the Start button, running `_start_reading`.  Qt
delivers `clicked` only while the button is enabled.  `portOk` models
"the port combo box text is non-empty" and `baudOk` models "the baudrate
field parses as `int`"; on either failure a dialog is shown and the method
returns with no state change.  On success a new reader bound to the
existing `self._data_queue` is created and started, Start is disabled,
Stop enabled, `_start_time` set to `now`, and both buffers cleared.  The
queue is NOT cleared or replaced.  If a reader reference were still held
it would be overwritten unstopped (counted by the ghost `orphaned`). -/
def clickStart (portOk baudOk : Bool) (now : ℚ) (s : PState) : PState :=
  if ¬s.startEnabled then s
  else if ¬portOk then s
  else if ¬baudOk then s
  else
    { s with
      reader := some s.nextReaderId
      nextReaderId := s.nextReaderId + 1
      orphaned := s.orphaned + (if s.reader.isSome then 1 else 0)
      startEnabled := false
      stopEnabled := true
      startTime := now
      data := []
      timeBuf := [] }

/-- A reader thread putting message `m` on the shared queue
(`self.data_queue.put(...)`).  `rid` is the ghost number of the putting
reader; the step relation only allows readers that have been created. -/
def readerPut (rid : ℕ) (m : Msg) (s : PState) : PState :=
  { s with dataQueue := s.dataQueue ++ [⟨rid, m⟩] }

/-- Processing of one message taken from the queue inside `timerEvent`'s
drain loop: an `Exception` shows a critical dialog and calls
`_stop_reading` (then `continue`); a value is appended to `_data` with
`time.time() - self._start_time` appended to `_time`.  Returns the new
state and whether a dialog was shown. -/
def processMsg (now : ℚ) (s : PState) (m : QMsg) : PState × Bool :=
  match m.msg with
  | Msg.error _ => (stopReading s, true)
  | Msg.sample v =>
    ({ s with
       timeBuf := s.timeBuf ++ [now - s.startTime]
       data := s.data ++ [v] }, false)

/-- The result of draining a batch of messages: the final state, the
number of error dialogs shown, the number of `_stop_reading` calls made,
and the list of messages consumed (in consumption order). -/
structure DrainResult where
  state : PState
  dialogs : ℕ
  stops : ℕ
  consumed : List QMsg
deriving Repr

/-- The `while not self._data_queue.empty(): item = self._data_queue.get()`
drain loop of `timerEvent`, run over a batch of messages in FIFO order. -/
def drainBatch (now : ℚ) : PState → List QMsg → DrainResult
  | s, [] => ⟨s, 0, 0, []⟩
  | s, m :: ms =>
    let p := processMsg now s m
    let r := drainBatch now p.1 ms
    ⟨r.state, (if p.2 then 1 else 0) + r.dialogs,
      (if p.2 then 1 else 0) + r.stops, m :: r.consumed⟩

/-- `SerialPlotter.timerEvent` for the polling timer: drain the queue to
empty, processing each message exactly once.  (The final
`self._canvas.draw_idle()` has no state effect.) -/
def timerTick (now : ℚ) (s : PState) : DrainResult :=
  drainBatch now { s with dataQueue := [] } s.dataQueue

/-- The states the controller can reach: from `__init__`, via Start/Stop
button clicks, polling-timer ticks, window close (`closeEvent` calls
`_stop_reading`), and puts by any reader created so far (a reader signalled
to stop can still complete one last blocking read and put, since `join` is
bounded by 1 s). -/
inductive Reachable : PState → Prop where
  | init (t0 : ℚ) : Reachable (initState t0)
  | start {s} (portOk baudOk : Bool) (now : ℚ) :
      Reachable s → Reachable (clickStart portOk baudOk now s)
  | stop {s} : Reachable s → Reachable (clickStop s)
  | tick {s} (now : ℚ) : Reachable s → Reachable (timerTick now s).state
  | put {s} (rid : ℕ) (m : Msg) :
      Reachable s → rid < s.nextReaderId → Reachable (readerPut rid m s)
  | close {s} : Reachable s → Reachable (stopReading s)

/-! ## The redraw callback: `SerialPlotter._update_plot` -/

/-- The outcome of one `_update_plot` call: the buffer was empty and the
render is unchanged, or new x/y axis limits were set, or an uncaught
`IndexError` from `self._time[-1]` (only possible when `_data` is
non-empty while `_time` is empty). -/
inductive PlotResult where
  | unchanged
  | redrawn (xlim ylim : ℚ × ℚ)
  | indexError
deriving DecidableEq, Repr

/-- The x-limits set by `_update_plot`:
`(max(0, self._time[-1] - 30), self._time[-1] + 1)`. -/
def xRange (tlast : ℚ) : ℚ × ℚ :=
  (max 0 (tlast - 30), tlast + 1)

/-- The y-limits set by `_update_plot` on the non-empty buffer `v :: vs`:
`ymin - padding, ymax + padding` with
`padding = 1.0 if ymin == ymax else 0.05 * (ymax - ymin)`. -/
def yRange (v : ℚ) (vs : List ℚ) : ℚ × ℚ :=
  let ymin := vs.foldl min v
  let ymax := vs.foldl max v
  let padding := if ymin = ymax then 1 else 5 / 100 * (ymax - ymin)
  (ymin - padding, ymax + padding)

/-- `SerialPlotter._update_plot` over rational-valued buffers (`timeBuf`
models `self._time`, `data` models `self._data`; sample values are taken
finite and exact here): an empty `_data` returns with the render
unchanged; otherwise the axes are set from the latest time and the value
extrema. -/
def updatePlot (timeBuf : List ℚ) (data : List ℚ) : PlotResult :=
  match data, timeBuf.getLast? with
  | [], _ => PlotResult.unchanged
  | _ :: _, none => PlotResult.indexError
  | v :: vs, some tlast => PlotResult.redrawn (xRange tlast) (yRange v vs)

/-- The value carried by a queued sample message, if it is one. -/
def sampleValue (m : QMsg) : Option PyFloat :=
  match m.msg with
  | Msg.sample v => some v
  | Msg.error _ => none

/-! ## Helper lemmas -/

lemma foldl_min_mem (v : ℚ) (vs : List ℚ) : vs.foldl min v ∈ v :: vs := by
  induction vs generalizing v with
  | nil => simp
  | cons a as ih =>
    rw [List.foldl_cons]
    rcases List.mem_cons.1 (ih (min v a)) with h1 | h1
    · rcases min_choice v a with hc | hc
      · rw [h1, hc]; exact List.mem_cons_self _ _
      · rw [h1, hc]; exact List.mem_cons_of_mem _ (List.mem_cons_self _ _)
    · exact List.mem_cons_of_mem _ (List.mem_cons_of_mem _ h1)

lemma foldl_max_mem (v : ℚ) (vs : List ℚ) : vs.foldl max v ∈ v :: vs := by
  induction vs generalizing v with
  | nil => simp
  | cons a as ih =>
    rw [List.foldl_cons]
    rcases List.mem_cons.1 (ih (max v a)) with h1 | h1
    · rcases max_choice v a with hc | hc
      · rw [h1, hc]; exact List.mem_cons_self _ _
      · rw [h1, hc]; exact List.mem_cons_of_mem _ (List.mem_cons_self _ _)
    · exact List.mem_cons_of_mem _ (List.mem_cons_of_mem _ h1)

lemma foldl_min_le (v : ℚ) (vs : List ℚ) : ∀ w ∈ v :: vs, vs.foldl min v ≤ w := by
  induction vs generalizing v with
  | nil =>
    intro w hw
    rw [List.mem_singleton] at hw
    simp [hw]
  | cons a as ih =>
    intro w hw
    rw [List.foldl_cons]
    rcases List.mem_cons.1 hw with h1 | h1
    · rw [h1]
      exact le_trans (ih (min v a) (min v a) (List.mem_cons_self _ _)) (min_le_left _ _)
    · rcases List.mem_cons.1 h1 with h2 | h2
      · rw [h2]
        exact le_trans (ih (min v a) (min v a) (List.mem_cons_self _ _)) (min_le_right _ _)
      · exact ih (min v a) w (List.mem_cons_of_mem _ h2)

lemma foldl_le_max (v : ℚ) (vs : List ℚ) : ∀ w ∈ v :: vs, w ≤ vs.foldl max v := by
  induction vs generalizing v with
  | nil =>
    intro w hw
    rw [List.mem_singleton] at hw
    simp [hw]
  | cons a as ih =>
    intro w hw
    rw [List.foldl_cons]
    rcases List.mem_cons.1 hw with h1 | h1
    · rw [h1]
      exact le_trans (le_max_left v a) (ih (max v a) (max v a) (List.mem_cons_self _ _))
    · rcases List.mem_cons.1 h1 with h2 | h2
      · rw [h2]
        exact le_trans (le_max_right _ _) (ih (max v a) (max v a) (List.mem_cons_self _ _))
      · exact ih (max v a) w (List.mem_cons_of_mem _ h2)

/-- The messages put by one run of the read loop are samples followed by at
most one trailing error. -/
lemma readLoop_shape (evs : List ReadEvent) :
    (∃ vs : List PyFloat, readLoop evs = vs.map Msg.sample) ∨
    (∃ vs : List PyFloat, ∃ e, readLoop evs = vs.map Msg.sample ++ [Msg.error e]) := by
  induction evs with
  | nil => exact Or.inl ⟨[], rfl⟩
  | cons ev evs ih =>
    cases ev with
    | ioError e => exact Or.inr ⟨[], e, rfl⟩
    | recv s =>
      by_cases hs : s = ""
      · simpa [readLoop, hs] using ih
      · simp only [readLoop, if_neg hs]
        cases hp : pyFloatParse s with
        | none => simpa using ih
        | some v =>
          rcases ih with ⟨vs, h⟩ | ⟨vs, e, h⟩
          · exact Or.inl ⟨v :: vs, by rw [h]; rfl⟩
          · exact Or.inr ⟨v :: vs, e, by rw [h]; rfl⟩

lemma drain_consumed (now : ℚ) (ms : List QMsg) :
    ∀ s : PState, (drainBatch now s ms).consumed = ms := by
  induction ms with
  | nil => intro s; rfl
  | cons m ms ih => intro s; simp [drainBatch, ih]

lemma drain_dialogs (now : ℚ) (ms : List QMsg) :
    ∀ s : PState, (drainBatch now s ms).dialogs = ms.countP isErrorQ := by
  induction ms with
  | nil => intro s; rfl
  | cons m ms ih =>
    intro s
    rcases m with ⟨rid, mv⟩
    cases mv <;>
      simp [drainBatch, processMsg, ih, List.countP_cons, isErrorQ, isErrorMsg,
        Nat.add_comm]

lemma drain_stops (now : ℚ) (ms : List QMsg) :
    ∀ s : PState, (drainBatch now s ms).stops = ms.countP isErrorQ := by
  induction ms with
  | nil => intro s; rfl
  | cons m ms ih =>
    intro s
    rcases m with ⟨rid, mv⟩
    cases mv <;>
      simp [drainBatch, processMsg, ih, List.countP_cons, isErrorQ, isErrorMsg,
        Nat.add_comm]

lemma drain_queue (now : ℚ) (ms : List QMsg) :
    ∀ s : PState, (drainBatch now s ms).state.dataQueue = s.dataQueue := by
  induction ms with
  | nil => intro s; rfl
  | cons m ms ih =>
    intro s
    rcases m with ⟨rid, mv⟩
    cases mv <;> simp [drainBatch, processMsg, stopReading, ih]

lemma drain_data (now : ℚ) (ms : List QMsg) :
    ∀ s : PState,
      (drainBatch now s ms).state.data = s.data ++ ms.filterMap sampleValue := by
  induction ms with
  | nil => intro s; simp [drainBatch]
  | cons m ms ih =>
    intro s
    rcases m with ⟨rid, mv⟩
    cases mv <;> simp [drainBatch, processMsg, stopReading, ih, sampleValue]

lemma drain_reader_none (now : ℚ) (ms : List QMsg) :
    ∀ s : PState, 1 ≤ ms.countP isErrorQ →
      (drainBatch now s ms).state.reader = none := by
  induction ms with
  | nil => intro s h; simp [List.countP_nil] at h
  | cons m ms ih =>
    intro s h
    rcases m with ⟨rid, mv⟩
    cases mv with
    | sample v =>
      simp only [List.countP_cons, isErrorQ, isErrorMsg] at h
      simp only [drainBatch, processMsg]
      exact ih _ (by simpa using h)
    | error e =>
      by_cases hh : 1 ≤ ms.countP isErrorQ
      · simp only [drainBatch, processMsg]
        exact ih _ hh
      · have h0 : ms.countP isErrorQ = 0 := by omega
        simp only [drainBatch, processMsg]
        have : ∀ s2 : PState, ms.countP isErrorQ = 0 →
            (drainBatch now s2 ms).state.reader = s2.reader := by
          clear ih h hh h0
          induction ms with
          | nil => intro s2 _; rfl
          | cons m2 ms2 ih2 =>
            intro s2 h2
            rcases m2 with ⟨rid2, mv2⟩
            cases mv2 with
            | sample v2 =>
              simp only [List.countP_cons, isErrorQ, isErrorMsg] at h2
              simp only [drainBatch, processMsg]
              exact ih2 _ (by simpa using h2)
            | error e2 =>
              simp [List.countP_cons, isErrorQ, isErrorMsg] at h2
        rw [this _ h0]
        rfl

/-- The controller invariant: the Start button is enabled exactly when no
reader reference is held, the Stop button is the Start button's negation,
no reader reference has ever been orphaned, and the two buffers have equal
length. -/
def GoodState (s : PState) : Prop :=
  (s.startEnabled = true ↔ s.reader = none) ∧
  s.stopEnabled = !s.startEnabled ∧
  s.orphaned = 0 ∧
  s.timeBuf.length = s.data.length

lemma goodState_stopReading (s : PState) (h : GoodState s) :
    GoodState (stopReading s) := by
  obtain ⟨-, -, h3, h4⟩ := h
  exact ⟨by simp [stopReading], by simp [stopReading], h3, h4⟩

lemma goodState_processMsg (now : ℚ) (s : PState) (m : QMsg) (h : GoodState s) :
    GoodState (processMsg now s m).1 := by
  rcases m with ⟨rid, mv⟩
  cases mv with
  | error e => exact goodState_stopReading s h
  | sample v =>
    obtain ⟨h1, h2, h3, h4⟩ := h
    refine ⟨by simpa using h1, by simpa using h2, h3, ?_⟩
    simp [processMsg, h4]

lemma goodState_drain (now : ℚ) (ms : List QMsg) :
    ∀ s : PState, GoodState s → GoodState (drainBatch now s ms).state := by
  induction ms with
  | nil => intro s h; exact h
  | cons m ms ih =>
    intro s h
    exact ih _ (goodState_processMsg now s m h)

lemma goodState_clickStart (portOk baudOk : Bool) (now : ℚ) (s : PState)
    (h : GoodState s) : GoodState (clickStart portOk baudOk now s) := by
  obtain ⟨h1, h2, h3, h4⟩ := h
  by_cases he : s.startEnabled = true
  · cases portOk with
    | false => simpa [clickStart, he] using ⟨h1, h2, h3, h4⟩
    | true =>
      cases baudOk with
      | false => simpa [clickStart, he] using ⟨h1, h2, h3, h4⟩
      | true =>
        have hr : s.reader = none := h1.1 he
        refine ⟨?_, ?_, ?_, ?_⟩ <;> simp [clickStart, he, hr, h3]
  · have he2 : s.startEnabled = false := by
      cases hb : s.startEnabled
      · rfl
      · exact absurd hb he
    simpa [clickStart, he2] using ⟨h1, h2, h3, h4⟩

/-- Every reachable controller state satisfies the invariant. -/
lemma reachable_good {s : PState} (h : Reachable s) : GoodState s := by
  induction h with
  | init t0 => exact ⟨by simp [initState], by simp [initState], rfl, rfl⟩
  | start portOk baudOk now _ ih => exact goodState_clickStart _ _ _ _ ih
  | stop _ ih =>
    rename_i s0 _
    by_cases hb : s0.stopEnabled = true
    · simpa [clickStop, hb] using goodState_stopReading s0 ih
    · have hb2 : s0.stopEnabled = false := by
        cases hx : s0.stopEnabled
        · rfl
        · exact absurd hx hb
      simpa [clickStop, hb2] using ih
  | tick now _ ih =>
    rename_i s0 _
    refine goodState_drain now s0.dataQueue _ ?_
    obtain ⟨h1, h2, h3, h4⟩ := ih
    exact ⟨by simpa using h1, by simpa using h2, h3, h4⟩
  | put rid m _ _ ih =>
    obtain ⟨h1, h2, h3, h4⟩ := ih
    exact ⟨by simpa [readerPut] using h1, by simpa [readerPut] using h2, h3, h4⟩
  | close _ ih =>
    rename_i s0 _
    exact goodState_stopReading s0 ih

lemma countP_map_sample (vs : List PyFloat) :
    (vs.map Msg.sample).countP isErrorMsg = 0 := by
  induction vs with
  | nil => rfl
  | cons v vs ih => simp [List.countP_cons, isErrorMsg, ih]

lemma error_not_mem_map_sample (e : String) (vs : List PyFloat) :
    Msg.error e ∉ vs.map Msg.sample := by
  intro h
  rcases List.mem_map.1 h with ⟨v, -, hv⟩
  exact Msg.noConfusion hv

/-! ## Claim theorems -/

/-- C1, counterexample: the line `inf` is accepted by Python's `float()`
and so the read loop emits a Sample message for it, although `inf` does not
parse as a *finite* float — refuting "a Sample message is emitted if and
only if the line parses as a finite float". -/
theorem c1_counterexample :
    readLoop [ReadEvent.recv "inf"] = [Msg.sample PyFloat.inf] ∧
    ∀ q : ℚ, pyFloatParse "inf" ≠ some (PyFloat.finite q) := by
  constructor
  · decide
  · intro q h
    have h2 : pyFloatParse "inf" = some PyFloat.inf := by decide
    rw [h2] at h
    exact PyFloat.noConfusion (Option.some.inj h)

/-- C1 (amended): for every line read, a Sample message is emitted if and
only if the line converts under Python's `float()` (which also accepts the
non-finite spellings `inf` / `infinity` / `nan`; finiteness is not
checked); a line that does not convert is silently discarded — no message
is produced and the read loop continues. -/
theorem c1_line_emission (s : String) (evs : List ReadEvent) :
    ((∃ v, readLoop (ReadEvent.recv s :: evs) = Msg.sample v :: readLoop evs) ↔
      (pyFloatParse s).isSome = true) ∧
    ((pyFloatParse s).isSome = false →
      readLoop (ReadEvent.recv s :: evs) = readLoop evs) := by
  have hlen : ∀ (v : PyFloat) (l : List Msg), l ≠ Msg.sample v :: l := by
    intro v l h
    have := congrArg List.length h
    simp at this
  by_cases hs : s = ""
  · have hp : pyFloatParse s = none := by rw [hs]; rfl
    have hr : readLoop (ReadEvent.recv s :: evs) = readLoop evs := by
      simp [readLoop, hs]
    constructor
    · constructor
      · rintro ⟨v, hv⟩
        rw [hr] at hv
        exact absurd hv (hlen v _)
      · intro hiso
        rw [hp] at hiso
        simp at hiso
    · intro _
      exact hr
  · cases hp : pyFloatParse s with
    | some v =>
      have hr : readLoop (ReadEvent.recv s :: evs) =
          Msg.sample v :: readLoop evs := by
        simp only [readLoop, if_neg hs, hp]
      constructor
      · constructor
        · intro _
          simp [hp]
        · intro _
          exact ⟨v, hr⟩
      · intro hiso
        simp at hiso
    | none =>
      have hr : readLoop (ReadEvent.recv s :: evs) = readLoop evs := by
        simp only [readLoop, if_neg hs, hp]
      constructor
      · constructor
        · rintro ⟨v, hv⟩
          rw [hr] at hv
          exact absurd hv (hlen v _)
        · intro hiso
          simp at hiso
      · intro _
        exact hr

/-- C1, witness: the malformed line `abc` produces no message and the loop
continues. -/
theorem c1_line_emission_witness :
    readLoop [ReadEvent.recv "abc"] = readLoop [] :=
  (c1_line_emission "abc" []).2 (by decide)

/-- C5: one run of the reader puts at most one error message on the
channel, and whenever an error message is put it is the reader's last
message. -/
theorem c5_terminal_error_last (openErr : Option String) (evs : List ReadEvent) :
    (readerRun openErr evs).countP isErrorMsg ≤ 1 ∧
    ∀ e, Msg.error e ∈ readerRun openErr evs →
      (readerRun openErr evs).getLast? = some (Msg.error e) := by
  cases openErr with
  | some e0 =>
    constructor
    · simp [readerRun, List.countP_cons, isErrorMsg]
    · intro e he
      rw [readerRun, List.mem_singleton] at he
      injection he with h
      subst h
      rfl
  | none =>
    simp only [readerRun]
    rcases readLoop_shape evs with ⟨vs, h⟩ | ⟨vs, e0, h⟩
    · rw [h]
      constructor
      · rw [countP_map_sample]
        omega
      · intro e he
        exact absurd he (error_not_mem_map_sample e vs)
    · rw [h]
      constructor
      · rw [List.countP_append, countP_map_sample]
        simp [List.countP_cons, isErrorMsg]
      · intro e he
        rcases List.mem_append.1 he with h1 | h1
        · exact absurd h1 (error_not_mem_map_sample e vs)
        · rw [List.mem_singleton] at h1
          injection h1 with hx
          subst hx
          exact List.getLast?_concat _

/-- C5, witness: a failed port open puts exactly the one error message,
which is the last (and only) message. -/
theorem c5_terminal_error_last_witness :
    (readerRun (some "could not open port") []).getLast? =
      some (Msg.error "could not open port") :=
  (c5_terminal_error_last (some "could not open port") []).2
    "could not open port" (by decide)

/-- The controller state after: session 1 starts (reader 0), reader 0 puts
the value 5, the session is stopped with the message still queued, and
session 2 starts (reader 1) at time 10.  Exhibits cross-session message
delivery through the one shared queue. -/
def staleTrace : PState :=
  clickStart true true 10 (clickStop (readerPut 0 (Msg.sample (PyFloat.finite 5))
    (clickStart true true 0 (initState 0))))

/-- C2, counterexample: the queue is created once in `__init__` and shared
by all sessions.  In the reachable state `staleTrace`, session 2 (reader 1)
has just started with an empty buffer, yet the queue still holds a message
produced by session 1's reader 0, and the next poll tick delivers that
value into session 2's buffer — refuting "a fresh (newly created, initially
empty) Sample Channel" per session. -/
theorem c2_counterexample :
    Reachable staleTrace ∧
    staleTrace.reader = some 1 ∧
    staleTrace.data = [] ∧
    staleTrace.dataQueue = [⟨0, Msg.sample (PyFloat.finite 5)⟩] ∧
    (timerTick 10 staleTrace).state.data = [PyFloat.finite 5] := by
  refine ⟨?_, by decide, by decide, by decide, by decide⟩
  exact Reachable.start true true 10 (Reachable.stop
    (Reachable.put 0 (Msg.sample (PyFloat.finite 5))
      (Reachable.start true true 0 (Reachable.init 0)) (by decide)))

/-- C2 (amended): every session start binds the new reader to the single
Sample Channel created at controller construction; neither starting nor
stopping a session replaces or empties the queue, so a message enqueued in
one session and not yet drained is delivered into a later session's
buffer. -/
theorem c2_shared_channel (s : PState) (portOk baudOk : Bool) (now : ℚ) :
    (clickStart portOk baudOk now s).dataQueue = s.dataQueue ∧
    (clickStop s).dataQueue = s.dataQueue ∧
    (stopReading s).dataQueue = s.dataQueue := by
  refine ⟨?_, ?_, rfl⟩
  · by_cases he : s.startEnabled = true
    · cases portOk <;> cases baudOk <;> simp [clickStart, he]
    · have he2 : s.startEnabled = false := by
        cases hb : s.startEnabled
        · rfl
        · exact absurd hb he
      simp [clickStart, he2]
  · cases hb : s.stopEnabled <;> simp [clickStop, hb, stopReading]

/-- C3: in every reachable state at most one reader is live (no reader
reference is ever orphaned by an overwriting start), and clicking Start
while a session is active (a reader is held) changes nothing — the Start
button is disabled for the whole session, so `_start_reading` never runs
then. -/
theorem c3_second_start_ignored (s : PState) (h : Reachable s) :
    s.orphaned = 0 ∧
    ∀ r, s.reader = some r → ∀ portOk baudOk now,
      clickStart portOk baudOk now s = s := by
  obtain ⟨h1, -, h3, -⟩ := reachable_good h
  refine ⟨h3, ?_⟩
  intro r hr portOk baudOk now
  have he : s.startEnabled = false := by
    cases hb : s.startEnabled
    · rfl
    · rw [h1.1 hb] at hr
      exact Option.noConfusion hr
  simp [clickStart, he]

/-- C3, witness: a second Start click right after a successful start
leaves the state unchanged. -/
theorem c3_second_start_ignored_witness :
    clickStart true true 5 (clickStart true true 0 (initState 0)) =
      clickStart true true 0 (initState 0) :=
  (c3_second_start_ignored _
      (Reachable.start true true 0 (Reachable.init 0))).2
    0 (by decide) true true 5

/-- C4: when a poll tick drains a batch containing exactly one Terminal
Error message, exactly one error dialog is shown, `_stop_reading` is
called exactly once, every message of the batch is consumed exactly once
and in order, the queue ends empty, the session ends stopped, and every
sample value of the batch is appended to the buffer. -/
theorem c4_error_batch (now : ℚ) (s : PState)
    (h : s.dataQueue.countP isErrorQ = 1) :
    (timerTick now s).dialogs = 1 ∧
    (timerTick now s).stops = 1 ∧
    (timerTick now s).consumed = s.dataQueue ∧
    (timerTick now s).state.dataQueue = [] ∧
    (timerTick now s).state.reader = none ∧
    (timerTick now s).state.data = s.data ++ s.dataQueue.filterMap sampleValue := by
  unfold timerTick
  refine ⟨?_, ?_, ?_, ?_, ?_, ?_⟩
  · rw [drain_dialogs]; exact h
  · rw [drain_stops]; exact h
  · exact drain_consumed now s.dataQueue _
  · rw [drain_queue]
  · exact drain_reader_none now s.dataQueue _ (by omega)
  · rw [drain_data]

/-- C4, witness: a concrete batch of one error and one sample shows the
dialog exactly once. -/
theorem c4_error_batch_witness :
    (timerTick 1 { initState 0 with
      dataQueue := [⟨0, Msg.error "boom"⟩,
        ⟨0, Msg.sample (PyFloat.finite 2)⟩] }).dialogs = 1 :=
  (c4_error_batch 1 _ (by decide)).1

/-- C6: on a non-empty buffer the redraw sets the y-range to
`[min − pad, max + pad]` with `pad = 1` when all values are equal and
`pad = 0.05 × (max − min)` otherwise; in particular the all-equal buffer
`[7, 7, 7]` gives `(6, 8)` and the buffer `[0, 10]` gives
`(−1/2, 21/2)`. -/
theorem c6_y_axis_range (timeBuf : List ℚ) (t v : ℚ) (vs : List ℚ)
    (ht : timeBuf.getLast? = some t) :
    (∃ m M, m ∈ v :: vs ∧ M ∈ v :: vs ∧ (∀ w ∈ v :: vs, m ≤ w ∧ w ≤ M) ∧
      updatePlot timeBuf (v :: vs) = PlotResult.redrawn (xRange t)
        (m - (if m = M then 1 else 5 / 100 * (M - m)),
         M + (if m = M then 1 else 5 / 100 * (M - m)))) ∧
    updatePlot [1] [7, 7, 7] = PlotResult.redrawn (xRange 1) (6, 8) ∧
    updatePlot [1] [0, 10] = PlotResult.redrawn (xRange 1) (-(1 / 2), 21 / 2) := by
  refine ⟨?_, ?_, ?_⟩
  case refine_2 =>
    show PlotResult.redrawn (xRange 1) (yRange 7 [7, 7]) = _
    simp [yRange]
    norm_num
  case refine_3 =>
    show PlotResult.redrawn (xRange 1) (yRange 0 [10]) = _
    simp [yRange]
    norm_num
  refine ⟨vs.foldl min v, vs.foldl max v, foldl_min_mem v vs,
    foldl_max_mem v vs, ?_, ?_⟩
  · intro w hw
    exact ⟨foldl_min_le v vs w hw, foldl_le_max v vs w hw⟩
  · have hu : updatePlot timeBuf (v :: vs) =
        PlotResult.redrawn (xRange t) (yRange v vs) := by
      simp [updatePlot, ht]
    rw [hu]
    simp [yRange]

/-- C6, witness: the buffer `[0, 10]` yields the y-range `(−1/2, 21/2)`. -/
theorem c6_y_axis_range_witness :
    updatePlot [1] [0, 10] = PlotResult.redrawn (xRange 1) (-(1 / 2), 21 / 2) :=
  (c6_y_axis_range [1] 1 0 [10] (by decide)).2.2

/-- C7: on a non-empty buffer whose latest elapsed time is `t` the redraw
sets the x-range to `(max 0 (t − 30), t + 1)`; in particular `t = 45`
gives `(15, 46)` and `t = 5` gives `(0, 6)`. -/
theorem c7_x_axis_range (timeBuf : List ℚ) (t v : ℚ) (vs : List ℚ)
    (ht : timeBuf.getLast? = some t) :
    updatePlot timeBuf (v :: vs) =
      PlotResult.redrawn (max 0 (t - 30), t + 1) (yRange v vs) ∧
    xRange 45 = (15, 46) ∧
    xRange 5 = (0, 6) := by
  refine ⟨by simp [updatePlot, ht, xRange], ?_, ?_⟩
  · unfold xRange
    rw [max_eq_right (by norm_num : (0 : ℚ) ≤ 45 - 30)]
    norm_num
  · unfold xRange
    rw [max_eq_left (by norm_num : (5 : ℚ) - 30 ≤ 0)]
    norm_num

/-- C7, witness: latest time 45 yields the x-range `(15, 46)`. -/
theorem c7_x_axis_range_witness :
    updatePlot [45] [3] = PlotResult.redrawn (15, 46) (yRange 3 []) := by
  have h := (c7_x_axis_range [45] 45 3 [] (by decide)).1
  rw [h]
  rw [max_eq_right (by norm_num : (0 : ℚ) ≤ 45 - 30)]
  norm_num

/-- C8: a successful session start (Start enabled, a port selected, a
valid baudrate) clears both buffers and sets the elapsed-time origin to
the start instant, whatever the prior state. -/
theorem c8_start_resets (s : PState) (now : ℚ) (h : s.startEnabled = true) :
    (clickStart true true now s).data = [] ∧
    (clickStart true true now s).timeBuf = [] ∧
    (clickStart true true now s).startTime = now := by
  refine ⟨?_, ?_, ?_⟩ <;> simp [clickStart, h]

/-- C8, witness: starting over a state with a non-empty buffer from an
earlier session leaves the buffer empty. -/
theorem c8_start_resets_witness :
    (clickStart true true 9 { initState 0 with
      data := [PyFloat.finite 3], timeBuf := [2] }).data = [] :=
  (c8_start_resets _ 9 rfl).1

/-- C9: `_stop_reading` is idempotent — calling it twice in a row leaves
the same state as calling it once — and in any reachable state with no
active session it changes nothing. -/
theorem c9_stop_idempotent :
    (∀ s : PState, stopReading (stopReading s) = stopReading s) ∧
    (∀ s : PState, Reachable s → s.reader = none → stopReading s = s) := by
  constructor
  · intro s
    rfl
  · intro s h hr
    obtain ⟨h1, h2, -, -⟩ := reachable_good h
    have he : s.startEnabled = true := h1.2 hr
    have hs : s.stopEnabled = false := by rw [h2, he]; rfl
    cases s
    simp_all [stopReading]

/-- C9, witness: stopping with no session active (the initial state) is a
no-op. -/
theorem c9_stop_idempotent_witness :
    stopReading (initState 0) = initState 0 :=
  c9_stop_idempotent.2 (initState 0) (Reachable.init 0) rfl

/-- C10: in every reachable controller state the `_time` and `_data`
buffers have equal length: session start clears both together and each
drained sample appends one timestamp and one value. -/
theorem c10_buffer_lengths (s : PState) (h : Reachable s) :
    s.timeBuf.length = s.data.length :=
  (reachable_good h).2.2.2

/-- C10, witness: after a start, a put and a poll tick the buffers have
equal length. -/
theorem c10_buffer_lengths_witness :
    (timerTick 1 (readerPut 0 (Msg.sample (PyFloat.finite 2))
        (clickStart true true 0 (initState 0)))).state.timeBuf.length =
      (timerTick 1 (readerPut 0 (Msg.sample (PyFloat.finite 2))
        (clickStart true true 0 (initState 0)))).state.data.length :=
  c10_buffer_lengths _ (Reachable.tick 1
    (Reachable.put 0 (Msg.sample (PyFloat.finite 2))
      (Reachable.start true true 0 (Reachable.init 0)) (by decide)))

end SerialPlotter
